import Mathlib

/-!
# Verification of the simubrowser tab manager

Shallow embedding of the browser-tab state machine implemented in
`src/components/Browser.tsx` (with the address-bar URL normalization from
`src/components/AddressBar.tsx`), together with proofs about its commands.

The embedding follows the source closely:
* `Tab` / `BrowserState` mirror the fields actually constructed and used by
  `Browser.tsx` (`createNewTab` builds exactly `id`, `url`, `title`,
  `history : string[]`, `currentHistoryIndex`, `error`).
* Each `handleXxx` function is the state transformation performed by the
  React `setBrowserState` call of the handler of the same name; external
  side effects (iframe manipulation, DOM reads) are out of scope, and data
  produced by the environment (fresh uuids, resolved titles) enters as an
  explicit argument.
* The source reads the active tab via `tabs.find(t => t.id === activeTabId)!`
  (a non-null assertion); the embedding uses `List.find?` and returns the
  state unchanged in the `none` branch, which is unreachable from states
  satisfying the Browser State invariant.
-/

namespace Simubrowser

/-- A browsing tab, as constructed and updated by `Browser.tsx`. -/
structure Tab where
  id : String
  url : String
  title : String
  history : List String
  currentHistoryIndex : Nat
  error : Option String
deriving DecidableEq, Repr

/-- The browser state: ordered tab list plus the active-tab pointer. -/
structure BrowserState where
  tabs : List Tab
  activeTabId : String
deriving DecidableEq, Repr

/-- Source `createNewTab` from `Browser.tsx`; the uuid produced by `uuidv4()` is
passed in as `freshId`. -/
def createNewTab (freshId : String) : Tab :=
  { id := freshId
    url := ""
    title := "New Tab"
    history := [""]
    currentHistoryIndex := 0
    error := none }

/-- The `activeTab` lookup: `tabs.find(t => t.id === activeTabId)`. -/
def activeTab? (st : BrowserState) : Option Tab :=
  st.tabs.find? (fun t => t.id == st.activeTabId)

/-- Source `updateActiveTab`: replace fields on every tab whose id equals
`activeTabId` (`tabs.map(t => t.id === activeTabId ? {...t, ...updates} : t)`).
The partial-record spread is modelled by the update function `u`. -/
def updateActiveTab (st : BrowserState) (u : Tab → Tab) : BrowserState :=
  { st with
    tabs := st.tabs.map (fun t => if t.id == st.activeTabId then u t else t) }

/-- Source `handleNavigate(url)`: truncate the active tab's history after the
cursor, append `url`, move the cursor to the new last index, clear the
error. -/
def handleNavigate (st : BrowserState) (url : String) : BrowserState :=
  match activeTab? st with
  | none => st
  | some activeTab =>
    let newHistory := activeTab.history.take (activeTab.currentHistoryIndex + 1) ++ [url]
    updateActiveTab st (fun t =>
      { t with
        url := url
        history := newHistory
        currentHistoryIndex := newHistory.length - 1
        error := none })

/-- Source `handleNewTab`: append a fresh tab and activate it. -/
def handleNewTab (st : BrowserState) (freshId : String) : BrowserState :=
  let newTab := createNewTab freshId
  { tabs := st.tabs ++ [newTab], activeTabId := newTab.id }

/-- Source `handleCloseTab(tabId)`: filter the tab out; if nothing remains, replace
with a single fresh tab (uuid passed as `freshId`); if the closed tab was
active, activate the first remaining tab. -/
def handleCloseTab (st : BrowserState) (tabId freshId : String) : BrowserState :=
  match st.tabs.filter (fun t => t.id != tabId) with
  | [] =>
    let newTab := createNewTab freshId
    { tabs := [newTab], activeTabId := newTab.id }
  | first :: rest =>
    { tabs := first :: rest
      activeTabId := if st.activeTabId == tabId then first.id else st.activeTabId }

/-- Source `handleBack`: when the cursor is positive, decrement it, set `url` to the
entry at the new cursor, and clear the error; otherwise do nothing.
(JS `history[i]` on a valid index; `getD` with `""` covers the out-of-range
case that cannot arise under the invariant.) -/
def handleBack (st : BrowserState) : BrowserState :=
  match activeTab? st with
  | none => st
  | some activeTab =>
    if 0 < activeTab.currentHistoryIndex then
      updateActiveTab st (fun t =>
        { t with
          currentHistoryIndex := activeTab.currentHistoryIndex - 1
          url := activeTab.history.getD (activeTab.currentHistoryIndex - 1) ""
          error := none })
    else st

/-- Source `handleForward`: when the cursor is before the last index, increment it,
set `url` to the entry at the new cursor, and clear the error; otherwise do
nothing. -/
def handleForward (st : BrowserState) : BrowserState :=
  match activeTab? st with
  | none => st
  | some activeTab =>
    if activeTab.currentHistoryIndex < activeTab.history.length - 1 then
      updateActiveTab st (fun t =>
        { t with
          currentHistoryIndex := activeTab.currentHistoryIndex + 1
          url := activeTab.history.getD (activeTab.currentHistoryIndex + 1) ""
          error := none })
    else st

/-- Source `handleRefresh`: clear the active tab's error (the iframe reload is an
external side effect on the display surface, out of scope). -/
def handleRefresh (st : BrowserState) : BrowserState :=
  updateActiveTab st (fun t => { t with error := none })

/-- The message set by `handleIframeError`. -/
def iframeErrorMessage : String :=
  "This website cannot be displayed in an iframe due to security restrictions."

/-- Source `handleIframeError` (reportDisplayError): set the active tab's error and
override its title. -/
def handleIframeError (st : BrowserState) : BrowserState :=
  updateActiveTab st (fun t =>
    { t with error := some iframeErrorMessage, title := "Cannot Display Content" })

/-- Source `handleIframeLoad` (reportLoadSuccess): record the resolved title on the
active tab.  The title is computed from the iframe document or
`getDomainFromUrl` by the environment and passed in. -/
def handleIframeLoad (st : BrowserState) (title : String) : BrowserState :=
  updateActiveTab st (fun t => { t with title := title })

/-- Source `onTabSelect` (Browser.tsx lines 143 and 207):
`setBrowserState(prev => ({ ...prev, activeTabId: id }))` — unconditional. -/
def selectTab (st : BrowserState) (id : String) : BrowserState :=
  { st with activeTabId := id }

/-- Address-bar normalization (`AddressBar.tsx`, `handleKeyPress`): trim the
input and prepend `https://` unless it already starts with `http://` or
`https://`. -/
def normalizeAddressInput (s : String) : String :=
  let url := s.trim
  if url.startsWith "http://" || url.startsWith "https://" then url
  else "https://" ++ url

/-- The full `navigate` command of the Navigation Controller: address-bar
normalization followed by `handleNavigate`. -/
def navigate (st : BrowserState) (raw : String) : BrowserState :=
  handleNavigate st (normalizeAddressInput raw)

/-- The initial browser state (`Browser.tsx` lines 21–25): one fresh tab,
active. -/
def initState (freshId : String) : BrowserState :=
  let initialTab := createNewTab freshId
  { tabs := [initialTab], activeTabId := initialTab.id }

/-- A sequence of `handleNavigate` calls. -/
def navigateSeq (st : BrowserState) (urls : List String) : BrowserState :=
  urls.foldl handleNavigate st

/-- The Browser State invariant: tabs non-empty, the active id resolves to a
member, tab ids are pairwise distinct, and every tab's cursor is a valid
index into its history. -/
def Inv (st : BrowserState) : Prop :=
  st.tabs ≠ [] ∧
  (∃ t ∈ st.tabs, t.id = st.activeTabId) ∧
  (st.tabs.map Tab.id).Nodup ∧
  ∀ t ∈ st.tabs, t.currentHistoryIndex < t.history.length

instance (st : BrowserState) : Decidable (Inv st) := by
  unfold Inv; infer_instance

/-- Frame property relating a state to a successor: the active pointer is
unchanged, the tab ids appear in the same order, and every tab whose id is
not the active id is unchanged field by field. -/
def FramePreserving (st st' : BrowserState) : Prop :=
  st'.activeTabId = st.activeTabId ∧
  st'.tabs.map Tab.id = st.tabs.map Tab.id ∧
  ∀ i : Nat, ∀ h : i < st.tabs.length, ∀ h' : i < st'.tabs.length,
    (st.tabs.get ⟨i, h⟩).id ≠ st.activeTabId →
      st'.tabs.get ⟨i, h'⟩ = st.tabs.get ⟨i, h⟩

/-! ## Helper lemmas about the embedding -/

theorem find?_map_update (l : List Tab) (aid : String) (u : Tab → Tab)
    (hu : ∀ t, (u t).id = t.id) :
    (l.map (fun t => if t.id == aid then u t else t)).find? (fun t => t.id == aid)
      = (l.find? (fun t => t.id == aid)).map
          (fun t => if t.id == aid then u t else t) := by
  induction l with
  | nil => rfl
  | cons t l ih =>
    cases h : (t.id == aid) with
    | true =>
      have hut : ((u t).id == aid) = true := by rw [hu t]; exact h
      rw [List.map_cons, if_pos h,
        List.find?_cons_of_pos (p := fun s : Tab => s.id == aid) _ hut,
        List.find?_cons_of_pos (p := fun s : Tab => s.id == aid) _ h,
        Option.map_some', if_pos h]
    | false =>
      have hne : ¬ ((t.id == aid) = true) := by simp [h]
      rw [List.map_cons, if_neg hne,
        List.find?_cons_of_neg (p := fun s : Tab => s.id == aid) _ hne,
        List.find?_cons_of_neg (p := fun s : Tab => s.id == aid) _ hne, ih]

theorem activeTabId_updateActiveTab (st : BrowserState) (u : Tab → Tab) :
    (updateActiveTab st u).activeTabId = st.activeTabId := rfl

theorem length_updateActiveTab (st : BrowserState) (u : Tab → Tab) :
    (updateActiveTab st u).tabs.length = st.tabs.length := by
  simp [updateActiveTab]

theorem map_id_updateActiveTab (st : BrowserState) (u : Tab → Tab)
    (hu : ∀ t, (u t).id = t.id) :
    (updateActiveTab st u).tabs.map Tab.id = st.tabs.map Tab.id := by
  unfold updateActiveTab
  simp only [List.map_map]
  refine List.map_congr_left ?_
  intro t _
  by_cases h : t.id = st.activeTabId <;> simp [h, hu]

theorem activeTab?_updateActiveTab (st : BrowserState) (u : Tab → Tab)
    (hu : ∀ t, (u t).id = t.id) (a : Tab) (ha : activeTab? st = some a) :
    activeTab? (updateActiveTab st u) = some (u a) := by
  unfold activeTab? at ha ⊢
  have hb := List.find?_some ha
  show (st.tabs.map fun t => if t.id == st.activeTabId then u t else t).find?
      (fun t => t.id == st.activeTabId) = some (u a)
  rw [find?_map_update _ _ _ hu, ha, Option.map_some']
  simp only at hb
  simp [hb]

theorem getElem_updateActiveTab_of_ne (st : BrowserState) (u : Tab → Tab)
    (i : Nat) (h : i < st.tabs.length) (h' : i < (updateActiveTab st u).tabs.length)
    (hne : (st.tabs.get ⟨i, h⟩).id ≠ st.activeTabId) :
    (updateActiveTab st u).tabs.get ⟨i, h'⟩ = st.tabs.get ⟨i, h⟩ := by
  unfold updateActiveTab at h' ⊢
  simp only [List.get_eq_getElem] at h' ⊢
  rw [List.getElem_map]
  have : ((st.tabs.get ⟨i, h⟩).id == st.activeTabId) = false := by
    simpa using hne
  simp only [List.get_eq_getElem] at this
  simp [this]

theorem frame_updateActiveTab (st : BrowserState) (u : Tab → Tab)
    (hu : ∀ t, (u t).id = t.id) : FramePreserving st (updateActiveTab st u) :=
  ⟨rfl, map_id_updateActiveTab st u hu,
    fun i h h' hne => getElem_updateActiveTab_of_ne st u i h h' hne⟩

theorem frame_refl (st : BrowserState) : FramePreserving st st :=
  ⟨rfl, rfl, fun _ _ _ _ => rfl⟩

theorem mem_updateActiveTab (st : BrowserState) (u : Tab → Tab) (t : Tab) :
    t ∈ (updateActiveTab st u).tabs ↔
      ∃ s ∈ st.tabs, t = if s.id == st.activeTabId then u s else s := by
  unfold updateActiveTab
  simp only [List.mem_map]
  constructor
  · rintro ⟨s, hs, rfl⟩; exact ⟨s, hs, rfl⟩
  · rintro ⟨s, hs, rfl⟩; exact ⟨s, hs, rfl⟩

theorem inv_updateActiveTab (st : BrowserState) (u : Tab → Tab) (hInv : Inv st)
    (hu : ∀ t, (u t).id = t.id)
    (hok : ∀ t ∈ st.tabs, t.id = st.activeTabId →
      (u t).currentHistoryIndex < (u t).history.length) :
    Inv (updateActiveTab st u) := by
  obtain ⟨hne, ⟨a, ha, haid⟩, hnodup, hcur⟩ := hInv
  refine ⟨?_, ?_, ?_, ?_⟩
  · unfold updateActiveTab
    simpa using hne
  · refine ⟨if a.id == st.activeTabId then u a else a,
      (mem_updateActiveTab st u _).mpr ⟨a, ha, rfl⟩, ?_⟩
    rw [activeTabId_updateActiveTab]
    by_cases h : a.id = st.activeTabId <;> simp [h, hu, haid]
  · rw [map_id_updateActiveTab st u hu]; exact hnodup
  · intro t ht
    obtain ⟨s, hs, rfl⟩ := (mem_updateActiveTab st u t).mp ht
    by_cases h : (s.id == st.activeTabId) = true
    · simp only [h, if_true]
      exact hok s hs (beq_iff_eq.mp h)
    · simp only [h, Bool.false_eq_true, if_false]
      exact hcur s hs

theorem activeTab?_eq_of_mem (st : BrowserState)
    (hnodup : (st.tabs.map Tab.id).Nodup)
    (t : Tab) (ht : t ∈ st.tabs) (hid : t.id = st.activeTabId) :
    activeTab? st = some t := by
  unfold activeTab?
  have hsome : (st.tabs.find? (fun t => t.id == st.activeTabId)).isSome := by
    rw [List.find?_isSome]
    exact ⟨t, ht, beq_iff_eq.mpr hid⟩
  obtain ⟨a, ha⟩ := Option.isSome_iff_exists.mp hsome
  have hb := List.find?_some ha
  simp only at hb
  have haid : a.id = st.activeTabId := beq_iff_eq.mp hb
  have hmem : a ∈ st.tabs := List.mem_of_find?_eq_some ha
  have hta : t = a :=
    List.inj_on_of_nodup_map hnodup ht hmem (by rw [hid, haid])
  rw [ha]
  exact congrArg some hta.symm

theorem activeTab?_of_inv (st : BrowserState) (h : Inv st) :
    ∃ a, activeTab? st = some a ∧ a ∈ st.tabs ∧ a.id = st.activeTabId ∧
      a.currentHistoryIndex < a.history.length := by
  obtain ⟨_, ⟨t, ht, hid⟩, hnodup, hcur⟩ := h
  exact ⟨t, activeTab?_eq_of_mem st hnodup t ht hid, ht, hid, hcur t ht⟩

theorem eq_active_of_mem (st : BrowserState) (hInv : Inv st)
    (a : Tab) (ha : activeTab? st = some a)
    (t : Tab) (ht : t ∈ st.tabs) (hid : t.id = st.activeTabId) : t = a := by
  rw [activeTab?_eq_of_mem st hInv.2.2.1 t ht hid] at ha
  exact Option.some_inj.mp ha

/-! ## Step lemmas for the individual handlers -/

theorem handleNavigate_active (st : BrowserState) (a : Tab)
    (ha : activeTab? st = some a) (url : String) :
    activeTab? (handleNavigate st url) = some
      { a with
        url := url
        history := a.history.take (a.currentHistoryIndex + 1) ++ [url]
        currentHistoryIndex :=
          (a.history.take (a.currentHistoryIndex + 1) ++ [url]).length - 1
        error := none } := by
  simp only [handleNavigate, ha]
  exact activeTab?_updateActiveTab st
    (fun t =>
      { t with
        url := url
        history := a.history.take (a.currentHistoryIndex + 1) ++ [url]
        currentHistoryIndex :=
          (a.history.take (a.currentHistoryIndex + 1) ++ [url]).length - 1
        error := none })
    (fun t => rfl) a ha

theorem inv_handleNavigate (st : BrowserState) (hInv : Inv st) (url : String) :
    Inv (handleNavigate st url) := by
  obtain ⟨a, ha, _, _, _⟩ := activeTab?_of_inv st hInv
  simp only [handleNavigate, ha]
  refine inv_updateActiveTab st _ hInv (fun t => rfl) ?_
  intro t _ _
  have hlen : 0 < (a.history.take (a.currentHistoryIndex + 1) ++ [url]).length := by
    simp
  exact Nat.sub_lt hlen Nat.one_pos

theorem handleBack_active (st : BrowserState) (a : Tab)
    (ha : activeTab? st = some a) (hpos : 0 < a.currentHistoryIndex) :
    activeTab? (handleBack st) = some
      { a with
        currentHistoryIndex := a.currentHistoryIndex - 1
        url := a.history.getD (a.currentHistoryIndex - 1) ""
        error := none } := by
  simp only [handleBack, ha, if_pos hpos]
  exact activeTab?_updateActiveTab st
    (fun t =>
      { t with
        currentHistoryIndex := a.currentHistoryIndex - 1
        url := a.history.getD (a.currentHistoryIndex - 1) ""
        error := none })
    (fun t => rfl) a ha

theorem handleBack_boundary (st : BrowserState) (a : Tab)
    (ha : activeTab? st = some a) (h : a.currentHistoryIndex = 0) :
    handleBack st = st := by
  simp [handleBack, ha, h]

theorem inv_handleBack (st : BrowserState) (hInv : Inv st) :
    Inv (handleBack st) := by
  obtain ⟨a, ha, _, _, hcur⟩ := activeTab?_of_inv st hInv
  by_cases hpos : 0 < a.currentHistoryIndex
  · simp only [handleBack, ha, if_pos hpos]
    refine inv_updateActiveTab st _ hInv (fun t => rfl) ?_
    intro t ht htid
    have hta : t = a := eq_active_of_mem st hInv a ha t ht htid
    subst hta
    exact Nat.lt_of_le_of_lt (Nat.sub_le _ _) hcur
  · simp only [handleBack, ha, if_neg hpos]
    exact hInv

theorem handleForward_active (st : BrowserState) (a : Tab)
    (ha : activeTab? st = some a)
    (hlt : a.currentHistoryIndex < a.history.length - 1) :
    activeTab? (handleForward st) = some
      { a with
        currentHistoryIndex := a.currentHistoryIndex + 1
        url := a.history.getD (a.currentHistoryIndex + 1) ""
        error := none } := by
  simp only [handleForward, ha, if_pos hlt]
  exact activeTab?_updateActiveTab st
    (fun t =>
      { t with
        currentHistoryIndex := a.currentHistoryIndex + 1
        url := a.history.getD (a.currentHistoryIndex + 1) ""
        error := none })
    (fun t => rfl) a ha

theorem handleForward_boundary (st : BrowserState) (a : Tab)
    (ha : activeTab? st = some a)
    (h : ¬ a.currentHistoryIndex < a.history.length - 1) :
    handleForward st = st := by
  simp [handleForward, ha, h]

theorem inv_handleForward (st : BrowserState) (hInv : Inv st) :
    Inv (handleForward st) := by
  obtain ⟨a, ha, _, _, hcur⟩ := activeTab?_of_inv st hInv
  by_cases hlt : a.currentHistoryIndex < a.history.length - 1
  · simp only [handleForward, ha, if_pos hlt]
    refine inv_updateActiveTab st _ hInv (fun t => rfl) ?_
    intro t ht htid
    have hta : t = a := eq_active_of_mem st hInv a ha t ht htid
    subst hta
    show t.currentHistoryIndex + 1 < t.history.length
    omega
  · simp only [handleForward, ha, if_neg hlt]
    exact hInv

theorem inv_handleRefresh (st : BrowserState) (hInv : Inv st) :
    Inv (handleRefresh st) := by
  refine inv_updateActiveTab st _ hInv (fun t => rfl) ?_
  intro t ht _
  exact hInv.2.2.2 t ht

theorem inv_handleIframeError (st : BrowserState) (hInv : Inv st) :
    Inv (handleIframeError st) := by
  refine inv_updateActiveTab st _ hInv (fun t => rfl) ?_
  intro t ht _
  exact hInv.2.2.2 t ht

theorem inv_handleIframeLoad (st : BrowserState) (hInv : Inv st) (title : String) :
    Inv (handleIframeLoad st title) := by
  refine inv_updateActiveTab st _ hInv (fun t => rfl) ?_
  intro t ht _
  exact hInv.2.2.2 t ht

theorem inv_selectTab_mem (st : BrowserState) (hInv : Inv st) (id : String)
    (hmem : ∃ t ∈ st.tabs, t.id = id) : Inv (selectTab st id) := by
  obtain ⟨hne, _, hnodup, hcur⟩ := hInv
  exact ⟨hne, hmem, hnodup, hcur⟩

theorem inv_handleNewTab (st : BrowserState) (hInv : Inv st) (fid : String)
    (hfresh : fid ∉ st.tabs.map Tab.id) : Inv (handleNewTab st fid) := by
  obtain ⟨_, _, hnodup, hcur⟩ := hInv
  refine ⟨by simp [handleNewTab], ⟨createNewTab fid, by simp [handleNewTab], rfl⟩,
    ?_, ?_⟩
  · simp only [handleNewTab, List.map_append]
    rw [List.nodup_append]
    refine ⟨hnodup, by simp, ?_⟩
    intro x hx hx'
    simp [createNewTab] at hx'
    subst hx'
    exact hfresh hx
  · intro t ht
    simp only [handleNewTab, List.mem_append, List.mem_singleton] at ht
    rcases ht with ht | ht
    · exact hcur t ht
    · subst ht
      simp [createNewTab]

theorem inv_handleCloseTab (st : BrowserState) (hInv : Inv st)
    (tid fid : String) : Inv (handleCloseTab st tid fid) := by
  obtain ⟨_, ⟨a, ha, haid⟩, hnodup, hcur⟩ := hInv
  unfold handleCloseTab
  cases hfil : st.tabs.filter (fun t => t.id != tid) with
  | nil =>
    refine ⟨by simp, ⟨createNewTab fid, by simp, rfl⟩, by simp, ?_⟩
    intro t ht
    simp only [List.mem_singleton] at ht
    subst ht
    simp [createNewTab]
  | cons first rest =>
    have hsub : (first :: rest).Sublist st.tabs :=
      hfil ▸ List.filter_sublist st.tabs
    refine ⟨by simp, ?_, ?_, ?_⟩
    · by_cases hact : st.activeTabId = tid
      · exact ⟨first, List.mem_cons_self _ _, by simp [hact]⟩
      · have haid' : (a.id != tid) = true := by
          simp only [bne_iff_ne]
          rw [haid]
          exact hact
        have hmem : a ∈ st.tabs.filter (fun t => t.id != tid) :=
          List.mem_filter.mpr ⟨ha, haid'⟩
        rw [hfil] at hmem
        exact ⟨a, hmem, by simp [hact, haid]⟩
    · exact hnodup.sublist (hsub.map Tab.id)
    · intro t ht
      exact hcur t (hsub.subset ht)

theorem activeTab?_initState (fid : String) :
    activeTab? (initState fid) = some (createNewTab fid) := by
  simp [initState, activeTab?, createNewTab]

theorem inv_initState (fid : String) : Inv (initState fid) := by
  refine ⟨by simp [initState], ⟨createNewTab fid, by simp [initState], rfl⟩,
    by simp [initState], ?_⟩
  intro t ht
  simp only [initState, List.mem_singleton] at ht
  subst ht
  simp [createNewTab]

theorem navigateSeq_spec (urls : List String) :
    ∀ st a, Inv st → activeTab? st = some a →
      a.currentHistoryIndex = a.history.length - 1 →
      Inv (navigateSeq st urls) ∧
      ∃ b, activeTab? (navigateSeq st urls) = some b ∧
        b.history = a.history ++ urls ∧
        b.currentHistoryIndex = b.history.length - 1 := by
  induction urls with
  | nil =>
    intro st a hInv ha hcur
    exact ⟨hInv, a, ha, by simp, hcur⟩
  | cons url rest ih =>
    intro st a hInv ha hcur
    have htake : a.history.take (a.currentHistoryIndex + 1) = a.history :=
      List.take_of_length_le (by omega)
    have hstep := handleNavigate_active st a ha url
    rw [htake] at hstep
    have hInv1 := inv_handleNavigate st hInv url
    have hrec := ih (handleNavigate st url) _ hInv1 hstep (by simp)
    obtain ⟨hInvN, b, hb, hhist, hcur'⟩ := hrec
    refine ⟨hInvN, b, hb, ?_, hcur'⟩
    rw [hhist]
    simp

/-! ## Sample states used by witnesses and counterexamples -/

/-- A one-tab state whose tab carries a load error and a two-entry history
with the cursor on the second entry. -/
def sampleTab : Tab :=
  { id := "a", url := "x", title := "T", history := ["", "x"],
    currentHistoryIndex := 1, error := some "err" }

def sampleState : BrowserState :=
  { tabs := [sampleTab], activeTabId := "a" }

/-- A two-tab state with the first tab active. -/
def twoTabState : BrowserState :=
  { tabs := [sampleTab, createNewTab "b"], activeTabId := "a" }

/-! ## Claims -/

/-- C1 counterexample: with a single tab of id `"a"`, the id `"b"` matches no
tab, yet `selectTab "b"` does not return a state equal to the input — the
claim that `selectTab` with an unknown id is a byte-for-byte no-op is false
on the code, which sets `activeTabId` unconditionally. -/
theorem selectTab_unknown_not_noop :
    (∀ t ∈ (initState "a").tabs, t.id ≠ "b") ∧
      selectTab (initState "a") "b" ≠ initState "a" := by
  decide

/-- C1 (amended): `selectTab(id)` with an id matching no tab does not fail and
is not a no-op: it sets `activeTabId := id` (leaving `tabs` unchanged), so
only the active pointer changes. -/
theorem selectTab_unknown_sets_pointer (st : BrowserState) (id : String)
    (hid : ∀ t ∈ st.tabs, t.id ≠ id) :
    (selectTab st id).activeTabId = id ∧ (selectTab st id).tabs = st.tabs :=
  ⟨rfl, rfl⟩

theorem selectTab_unknown_sets_pointer_witness :
    (selectTab (initState "a") "b").activeTabId = "b" ∧
      (selectTab (initState "a") "b").tabs = (initState "a").tabs :=
  selectTab_unknown_sets_pointer (initState "a") "b" (by decide)

/-- C2 counterexample: the invariant-satisfying one-tab state with id `"a"`
is taken by `selectTab "b"` to a state whose `activeTabId` resolves to no
tab, so the claim that every command (including `selectTab`) preserves the
Browser State invariant is false on the code. -/
theorem selectTab_breaks_invariant :
    Inv (initState "a") ∧ ¬ Inv (selectTab (initState "a") "b") := by
  decide

/-- C2 (amended): starting from any state satisfying the invariant, the
commands `navigate`, `back`, `forward`, `refresh`, `openTab` (given a fresh
id), and `closeTab` preserve the invariant unconditionally, and `selectTab`
preserves it when the selected id belongs to some tab. -/
theorem commands_preserve_invariant (st : BrowserState) (hInv : Inv st) :
    (∀ url, Inv (handleNavigate st url)) ∧
    Inv (handleBack st) ∧
    Inv (handleForward st) ∧
    Inv (handleRefresh st) ∧
    (∀ fid, fid ∉ st.tabs.map Tab.id → Inv (handleNewTab st fid)) ∧
    (∀ tid fid, Inv (handleCloseTab st tid fid)) ∧
    (∀ id, (∃ t ∈ st.tabs, t.id = id) → Inv (selectTab st id)) :=
  ⟨fun url => inv_handleNavigate st hInv url,
   inv_handleBack st hInv,
   inv_handleForward st hInv,
   inv_handleRefresh st hInv,
   fun fid hf => inv_handleNewTab st hInv fid hf,
   fun tid fid => inv_handleCloseTab st hInv tid fid,
   fun id hm => inv_selectTab_mem st hInv id hm⟩

theorem commands_preserve_invariant_witness :
    Inv (initState "a") ∧ Inv (handleBack (initState "a")) :=
  ⟨by decide, (commands_preserve_invariant (initState "a") (by decide)).2.1⟩

/-- C3: `push` (navigate on the active tab) truncates the history to
`[0..cursor]`, appends the destination, and puts the cursor on the new last
index; and for every sequence of navigate calls from a fresh tab, the cursor
equals `len(entries) - 1` after each call and the entries after the initial
empty destination are exactly the navigated destinations in order. -/
theorem navigate_push_semantics (st : BrowserState) (a : Tab)
    (hInv : Inv st) (ha : activeTab? st = some a) (url : String)
    (fid : String) (urls : List String) :
    (∃ a', activeTab? (handleNavigate st url) = some a' ∧
      a'.history = a.history.take (a.currentHistoryIndex + 1) ++ [url] ∧
      a'.currentHistoryIndex = a'.history.length - 1) ∧
    (∃ b, activeTab? (navigateSeq (initState fid) urls) = some b ∧
      b.history = "" :: urls ∧
      b.currentHistoryIndex = b.history.length - 1) := by
  constructor
  · exact ⟨_, handleNavigate_active st a ha url, rfl, rfl⟩
  · obtain ⟨_, b, hb, hhist, hcur⟩ :=
      navigateSeq_spec urls (initState fid) (createNewTab fid)
        (inv_initState fid) (activeTab?_initState fid) rfl
    exact ⟨b, hb, by simpa [createNewTab] using hhist, hcur⟩

theorem navigate_push_semantics_witness :
    Inv sampleState ∧
    ((∃ a', activeTab? (handleNavigate sampleState "u") = some a' ∧
        a'.history = sampleTab.history.take (sampleTab.currentHistoryIndex + 1)
          ++ ["u"] ∧
        a'.currentHistoryIndex = a'.history.length - 1) ∧
      (∃ b, activeTab? (navigateSeq (initState "c") ["x", "y", "x"]) = some b ∧
        b.history = "" :: ["x", "y", "x"] ∧
        b.currentHistoryIndex = b.history.length - 1)) :=
  ⟨by decide,
    navigate_push_semantics sampleState sampleTab (by decide) (by decide)
      "u" "c" ["x", "y", "x"]⟩

/-- C4: from an invariant state whose active tab has a positive cursor,
`back()` then `forward()` restores the active tab's history, cursor, and
current destination (`history[cursor]` before the pair); at either boundary
(`cursor = 0` for back, `cursor = len - 1` for forward) the command leaves
the Browser State unchanged. -/
theorem back_forward_round_trip (st : BrowserState) (a : Tab)
    (hInv : Inv st) (ha : activeTab? st = some a) :
    (0 < a.currentHistoryIndex →
      ∃ a', activeTab? (handleForward (handleBack st)) = some a' ∧
        a'.history = a.history ∧
        a'.currentHistoryIndex = a.currentHistoryIndex ∧
        a'.url = a.history.getD a.currentHistoryIndex "") ∧
    (a.currentHistoryIndex = 0 → handleBack st = st) ∧
    (a.currentHistoryIndex = a.history.length - 1 → handleForward st = st) := by
  obtain ⟨a0, ha0, _, _, hcur⟩ := activeTab?_of_inv st hInv
  rw [ha] at ha0
  obtain rfl : a = a0 := Option.some_inj.mp ha0
  refine ⟨?_, ?_, ?_⟩
  · intro hpos
    have hstep1 := handleBack_active st a ha hpos
    have hstep2 := handleForward_active (handleBack st) _ hstep1 (by
      show a.currentHistoryIndex - 1 < a.history.length - 1
      omega)
    refine ⟨_, hstep2, rfl, ?_, ?_⟩
    · show a.currentHistoryIndex - 1 + 1 = a.currentHistoryIndex
      omega
    · show a.history.getD (a.currentHistoryIndex - 1 + 1) ""
        = a.history.getD a.currentHistoryIndex ""
      congr 1
      omega
  · intro h0
    exact handleBack_boundary st a ha h0
  · intro hend
    refine handleForward_boundary st a ha ?_
    omega

theorem back_forward_round_trip_witness :
    Inv sampleState ∧
    (∃ a', activeTab? (handleForward (handleBack sampleState)) = some a' ∧
      a'.history = sampleTab.history ∧
      a'.currentHistoryIndex = sampleTab.currentHistoryIndex ∧
      a'.url = sampleTab.history.getD sampleTab.currentHistoryIndex "") :=
  ⟨by decide,
    (back_forward_round_trip sampleState sampleTab (by decide) (by decide)).1
      (by decide)⟩

/-- C5: closing the only tab of a one-tab state yields a state holding
exactly one fresh default tab — empty destination as the sole history entry,
cursor `0`, title `"New Tab"`, no load error — whose id is the active id. -/
theorem close_last_tab_resets (st : BrowserState) (t : Tab) (fid : String)
    (h : st.tabs = [t]) :
    handleCloseTab st t.id fid =
      { tabs := [{ id := fid
                   url := ""
                   title := "New Tab"
                   history := [""]
                   currentHistoryIndex := 0
                   error := none }]
        activeTabId := fid } := by
  have hfil : st.tabs.filter (fun s => s.id != t.id) = [] := by
    rw [h]
    simp
  unfold handleCloseTab
  rw [hfil]
  rfl

theorem close_last_tab_resets_witness :
    handleCloseTab sampleState sampleTab.id "b" =
      { tabs := [{ id := "b"
                   url := ""
                   title := "New Tab"
                   history := [""]
                   currentHistoryIndex := 0
                   error := none }]
        activeTabId := "b" } :=
  close_last_tab_resets sampleState sampleTab "b" (by decide)

/-- C6: in an invariant state with at least two tabs, closing a tab that is
present keeps the remaining tabs in their relative order (the filtered
sequence); closing a non-active tab leaves `activeTabId` unchanged, and
closing the active tab activates the first tab of the remaining sequence. -/
theorem close_tab_two_tabs (st : BrowserState) (tid fid : String)
    (hInv : Inv st) (hlen : 2 ≤ st.tabs.length)
    (hmem : ∃ t ∈ st.tabs, t.id = tid) :
    (handleCloseTab st tid fid).tabs = st.tabs.filter (fun t => t.id != tid) ∧
    (handleCloseTab st tid fid).tabs.Sublist st.tabs ∧
    (tid ≠ st.activeTabId →
      (handleCloseTab st tid fid).activeTabId = st.activeTabId) ∧
    (tid = st.activeTabId → ∃ first rest,
      st.tabs.filter (fun t => t.id != tid) = first :: rest ∧
      (handleCloseTab st tid fid).activeTabId = first.id) := by
  obtain ⟨x, y, l, hxy⟩ : ∃ x y l, st.tabs = x :: y :: l := by
    cases hts : st.tabs with
    | nil =>
      rw [hts] at hlen
      simp at hlen
    | cons x rest =>
      cases rest with
      | nil =>
        rw [hts] at hlen
        simp at hlen
      | cons y l => exact ⟨x, y, l, rfl⟩
  have hnd := hInv.2.2.1
  rw [hxy] at hnd
  simp only [List.map_cons, List.nodup_cons, List.mem_cons] at hnd
  have hxyne : x.id ≠ y.id := fun h => hnd.1 (Or.inl h)
  have hfilne : st.tabs.filter (fun t => t.id != tid) ≠ [] := by
    have hzsur : ∃ z ∈ st.tabs, (z.id != tid) = true := by
      by_cases hx : x.id = tid
      · refine ⟨y, by rw [hxy]; simp, ?_⟩
        simp only [bne_iff_ne]
        intro hy
        exact hxyne (by rw [hx, hy])
      · exact ⟨x, by rw [hxy]; simp, by simp [bne_iff_ne]; exact hx⟩
    obtain ⟨z, hz, hzid⟩ := hzsur
    intro hnil
    have hzf : z ∈ st.tabs.filter (fun t => t.id != tid) :=
      List.mem_filter.mpr ⟨hz, hzid⟩
    rw [hnil] at hzf
    simp at hzf
  cases hfil : st.tabs.filter (fun t => t.id != tid) with
  | nil => exact absurd hfil hfilne
  | cons first rest =>
    unfold handleCloseTab
    rw [hfil]
    refine ⟨rfl, ?_, ?_, ?_⟩
    · show (first :: rest).Sublist st.tabs
      rw [← hfil]
      exact List.filter_sublist st.tabs
    · intro hne
      show (if st.activeTabId == tid then first.id else st.activeTabId)
        = st.activeTabId
      rw [if_neg]
      simp only [beq_iff_eq]
      exact fun h => hne h.symm
    · intro heq
      refine ⟨first, rest, rfl, ?_⟩
      show (if st.activeTabId == tid then first.id else st.activeTabId)
        = first.id
      rw [if_pos]
      simp only [beq_iff_eq]
      exact heq.symm

theorem close_tab_two_tabs_witness :
    (2 ≤ twoTabState.tabs.length ∧ Inv twoTabState) ∧
    ((handleCloseTab twoTabState "b" "c").tabs
        = twoTabState.tabs.filter (fun t => t.id != "b") ∧
      (handleCloseTab twoTabState "b" "c").tabs.Sublist twoTabState.tabs ∧
      ("b" ≠ twoTabState.activeTabId →
        (handleCloseTab twoTabState "b" "c").activeTabId
          = twoTabState.activeTabId) ∧
      ("b" = twoTabState.activeTabId → ∃ first rest,
        twoTabState.tabs.filter (fun t => t.id != "b") = first :: rest ∧
        (handleCloseTab twoTabState "b" "c").activeTabId = first.id)) :=
  ⟨⟨by decide, by decide⟩,
    close_tab_two_tabs twoTabState "b" "c" (by decide) (by decide)
      ⟨createNewTab "b", by decide, by decide⟩⟩

/-- C7: in an invariant state, closing an id that matches no tab is a no-op:
the resulting Browser State equals the input state (the filter removes
nothing and the active pointer is untouched). -/
theorem close_unknown_id_noop (st : BrowserState) (tid fid : String)
    (hInv : Inv st) (hunk : ∀ t ∈ st.tabs, t.id ≠ tid) :
    handleCloseTab st tid fid = st := by
  have hfil : st.tabs.filter (fun t => t.id != tid) = st.tabs :=
    List.filter_eq_self.mpr (fun t ht => by
      simp only [bne_iff_ne]
      exact hunk t ht)
  have hx : ¬ (st.activeTabId == tid) = true := by
    simp only [beq_iff_eq]
    obtain ⟨a, ha, haid⟩ := hInv.2.1
    rw [← haid]
    exact hunk a ha
  unfold handleCloseTab
  rw [hfil]
  cases hts : st.tabs with
  | nil => exact absurd hts hInv.1
  | cons x l =>
    show ({ tabs := x :: l
            activeTabId :=
              if st.activeTabId == tid then x.id else st.activeTabId }
          : BrowserState) = st
    rw [if_neg hx, ← hts]

theorem close_unknown_id_noop_witness :
    Inv twoTabState ∧ handleCloseTab twoTabState "zz" "c" = twoTabState :=
  ⟨by decide, close_unknown_id_noop twoTabState "zz" "c" (by decide) (by decide)⟩

/-- C8: `navigate(raw)` pushes the normalized destination
`normalizeAddressInput raw` onto the active tab's history and clears the
load error; the normalization prepends the default secure scheme prefix
`https://` exactly when the trimmed input lacks a recognized scheme prefix
(`http://` or `https://`), and otherwise leaves the trimmed input as is. -/
theorem navigate_normalizes_and_clears_error (st : BrowserState) (a : Tab)
    (raw : String) (ha : activeTab? st = some a) :
    ∃ a', activeTab? (navigate st raw) = some a' ∧
      a'.error = none ∧
      a'.history = a.history.take (a.currentHistoryIndex + 1)
        ++ [normalizeAddressInput raw] ∧
      a'.url = normalizeAddressInput raw ∧
      ((raw.trim.startsWith "http://" || raw.trim.startsWith "https://")
          = false →
        normalizeAddressInput raw = "https://" ++ raw.trim) ∧
      ((raw.trim.startsWith "http://" || raw.trim.startsWith "https://")
          = true →
        normalizeAddressInput raw = raw.trim) := by
  unfold navigate
  have hstep := handleNavigate_active st a ha (normalizeAddressInput raw)
  refine ⟨_, hstep, ?_, ?_, ?_, ?_, ?_⟩
  · with_reducible rfl
  · with_reducible rfl
  · with_reducible rfl
  · intro h
    simp [normalizeAddressInput, h]
  · intro h
    simp [normalizeAddressInput, h]

theorem navigate_normalizes_and_clears_error_witness :
    ∃ a', activeTab? (navigate sampleState "example.com") = some a' ∧
      a'.error = none ∧
      a'.history = sampleTab.history.take (sampleTab.currentHistoryIndex + 1)
        ++ [normalizeAddressInput "example.com"] ∧
      a'.url = normalizeAddressInput "example.com" ∧
      (("example.com".trim.startsWith "http://"
          || "example.com".trim.startsWith "https://") = false →
        normalizeAddressInput "example.com" = "https://" ++ "example.com".trim) ∧
      (("example.com".trim.startsWith "http://"
          || "example.com".trim.startsWith "https://") = true →
        normalizeAddressInput "example.com" = "example.com".trim) :=
  navigate_normalizes_and_clears_error sampleState sampleTab "example.com"
    (by decide)

/-- C9 counterexample: on a state whose active tab carries a load error and a
positive cursor, `back()` clears the error — so the claim that every command
except `navigate` and `refresh` (in particular `back()`) leaves a set
`loadError` in place is false on the code, which writes `error := none` in
both `handleBack` and `handleForward`. -/
theorem back_clears_error :
    (activeTab? sampleState).map Tab.error = some (some "err") ∧
    (activeTab? (handleBack sampleState)).map Tab.error = some none := by
  decide

/-- C9 (amended): once a tab's `loadError` is set, `selectTab` and `openTab`
leave every existing tab (hence the error) untouched, while `navigate`,
`refresh`, and also any non-boundary `back()` or `forward()` on that tab
clear the error. -/
theorem error_persistence (st : BrowserState) (a : Tab) (e : String)
    (hInv : Inv st) (ha : activeTab? st = some a) (herr : a.error = some e) :
    (∀ id, (selectTab st id).tabs = st.tabs) ∧
    (∀ fid, (handleNewTab st fid).tabs = st.tabs ++ [createNewTab fid]) ∧
    (∀ url, ∃ a', activeTab? (handleNavigate st url) = some a' ∧
      a'.error = none) ∧
    (∃ a', activeTab? (handleRefresh st) = some a' ∧ a'.error = none) ∧
    (0 < a.currentHistoryIndex →
      ∃ a', activeTab? (handleBack st) = some a' ∧ a'.error = none) ∧
    (a.currentHistoryIndex < a.history.length - 1 →
      ∃ a', activeTab? (handleForward st) = some a' ∧ a'.error = none) := by
  refine ⟨fun _ => rfl, fun _ => rfl, ?_, ?_, ?_, ?_⟩
  · intro url
    exact ⟨_, handleNavigate_active st a ha url, rfl⟩
  · exact ⟨_, activeTab?_updateActiveTab st
      (fun t => { t with error := none }) (fun t => rfl) a ha, rfl⟩
  · intro hpos
    exact ⟨_, handleBack_active st a ha hpos, rfl⟩
  · intro hlt
    exact ⟨_, handleForward_active st a ha hlt, rfl⟩

theorem error_persistence_witness :
    (Inv sampleState ∧ sampleTab.error = some "err") ∧
    ((∀ id, (selectTab sampleState id).tabs = sampleState.tabs) ∧
      (∀ fid, (handleNewTab sampleState fid).tabs
        = sampleState.tabs ++ [createNewTab fid]) ∧
      (∀ url, ∃ a', activeTab? (handleNavigate sampleState url) = some a' ∧
        a'.error = none) ∧
      (∃ a', activeTab? (handleRefresh sampleState) = some a' ∧
        a'.error = none) ∧
      (0 < sampleTab.currentHistoryIndex →
        ∃ a', activeTab? (handleBack sampleState) = some a' ∧
          a'.error = none) ∧
      (sampleTab.currentHistoryIndex < sampleTab.history.length - 1 →
        ∃ a', activeTab? (handleForward sampleState) = some a' ∧
          a'.error = none)) :=
  ⟨⟨by decide, by decide⟩,
    error_persistence sampleState sampleTab "err" (by decide) (by decide)
      (by decide)⟩

/-- C10: each of `navigate`, `back`, `forward`, `refresh`,
`reportDisplayError` (`handleIframeError`), and `reportLoadSuccess`
(`handleIframeLoad`) touches at most the tab(s) whose id equals
`activeTabId`: the active pointer is unchanged, ids keep their positions and
order, and every tab with a different id is unchanged field by field. -/
theorem commands_frame (st : BrowserState) (hInv : Inv st)
    (url ttl : String) :
    FramePreserving st (handleNavigate st url) ∧
    FramePreserving st (handleBack st) ∧
    FramePreserving st (handleForward st) ∧
    FramePreserving st (handleRefresh st) ∧
    FramePreserving st (handleIframeError st) ∧
    FramePreserving st (handleIframeLoad st ttl) := by
  obtain ⟨a, ha, _, _, _⟩ := activeTab?_of_inv st hInv
  refine ⟨?_, ?_, ?_, ?_, ?_, ?_⟩
  · simp only [handleNavigate, ha]
    exact frame_updateActiveTab st _ (fun t => rfl)
  · by_cases hpos : 0 < a.currentHistoryIndex
    · simp only [handleBack, ha, if_pos hpos]
      exact frame_updateActiveTab st _ (fun t => rfl)
    · simp only [handleBack, ha, if_neg hpos]
      exact frame_refl st
  · by_cases hlt : a.currentHistoryIndex < a.history.length - 1
    · simp only [handleForward, ha, if_pos hlt]
      exact frame_updateActiveTab st _ (fun t => rfl)
    · simp only [handleForward, ha, if_neg hlt]
      exact frame_refl st
  · exact frame_updateActiveTab st _ (fun t => rfl)
  · exact frame_updateActiveTab st _ (fun t => rfl)
  · exact frame_updateActiveTab st _ (fun t => rfl)

theorem commands_frame_witness :
    Inv twoTabState ∧ FramePreserving twoTabState (handleRefresh twoTabState) :=
  ⟨by decide, (commands_frame twoTabState (by decide) "u" "T").2.2.2.1⟩

end Simubrowser
